import Mathlib

/-!
Shallow embedding of the move-orchestration core of `chesshook.user.js`
(the Lichook userscript).  Pure string manipulation is modelled at the
character-list level, the script's module-level mutable variables are
gathered into an explicit `ScriptState` record, and each event handler of
the source becomes a state-transition function.  Observable effects
(engine commands posted, frames sent over the socket, scheduled dispatch
timers, log lines) are recorded in the state so that theorems can speak
about them.
-/

namespace Lichook

/-- Model of the JS `String.prototype.split` with the single-character
separator `' '` (as used in `completeFen`, line 86, and in the engine
message handler, line 215): splitting at every space, where adjacent
separators produce empty fields and the empty string yields one empty
field. -/
def splitChar : List Char → List (List Char)
  | [] => [[]]
  | c :: rest =>
    if c = ' ' then [] :: splitChar rest
    else
      match splitChar rest with
      | [] => [[c]]
      | h :: t => (c :: h) :: t

/-- Model of the JS `Array.prototype.join(' ')` (line 94): interleave a
single space between the parts. -/
def joinChar : List (List Char) → List Char
  | [] => []
  | [l] => l
  | l :: ls => l ++ ' ' :: joinChar ls

/-- The JS `s.split(' ')` at the `String` level. -/
def jsSplit (s : String) : List String :=
  (splitChar s.data).map String.mk

/-- The JS `parts.join(' ')` at the `String` level. -/
def jsJoin (parts : List String) : String :=
  String.mk (joinChar (parts.map String.data))

/-- The four chained `if (fenParts.length === k) fenParts.push(v)`
statements of `completeFen` (source lines 90-93).  They are cascading:
pushing at length 2 makes the next test (length 3) fire as well, so any
list of 2 to 5 fields grows to exactly 6. -/
def completeFenParts (fenParts : List String) : List String :=
  let p2 := if fenParts.length = 2 then fenParts ++ ["-"] else fenParts
  let p3 := if p2.length = 3 then p2 ++ ["-"] else p2
  let p4 := if p3.length = 4 then p3 ++ ["0"] else p3
  if p4.length = 5 then p4 ++ ["1"] else p4

/-- Function `completeFen` (source lines 85-95): split on spaces, return the input
unchanged when it already has six fields, otherwise push defaults
(castling `-`, en passant `-`, halfmove `0`, fullmove `1`) and re-join. -/
def completeFen (partialFen : String) : String :=
  let fenParts := jsSplit partialFen
  if fenParts.length = 6 then partialFen
  else jsJoin (completeFenParts fenParts)

/-- Model of the JS `String.prototype.includes`: substring containment
test, via a structural scan of the character list. -/
def startsWithChars : List Char → List Char → Bool
  | [], _ => true
  | _ :: _, [] => false
  | a :: as, b :: bs => a = b && startsWithChars as bs

/-- Whether `sub` occurs as a contiguous run inside `l`. -/
def containsChars (l sub : List Char) : Bool :=
  startsWithChars sub l ||
    match l with
    | [] => false
    | _ :: t => containsChars t sub

/-- The JS `s.includes(sub)` for the strings used by the engine handler. -/
def jsIncludes (s sub : String) : Bool :=
  containsChars s.data sub.data

/-- The JS `message.split(" ")[1]` (source line 215): the second
whitespace-separated field, `none` when the message has a single field
(JS yields `undefined` there). -/
def secondField (msg : String) : Option String :=
  (jsSplit msg).get? 1

/-- The persisted settings object (source lines 33-43). -/
structure Settings where
  autoMove : Bool
  skillLevel : Int
  depth : Int
  timeLimitMs : Int
  humanLikeTiming : Bool
  minDelay : Int
  maxDelay : Int
  debugMode : Bool
  showBestMove : Bool
deriving DecidableEq

/-- Object `defaultSettings` (source lines 33-43). -/
def defaultSettings : Settings :=
  { autoMove := false, skillLevel := 10, depth := 4, timeLimitMs := 1000,
    humanLikeTiming := false, minDelay := 500, maxDelay := 2000,
    debugMode := false, showBestMove := true }

/-- The tracked WebSocket: its `readyState` (JS `WebSocket.OPEN` is `1`)
and whether a `send` call on it would throw (the `catch` branch of
`sendMove`, lines 308-311). -/
structure WSConn where
  readyState : Nat
  sendThrows : Bool
deriving DecidableEq

/-- An outbound move frame `{t:"move", d:{u, b, l, a}}` (source lines
290-298). -/
structure Frame where
  t : String
  u : String
  b : Int
  l : Int
  a : Int
deriving DecidableEq

/-- A `moveHistory` entry (source lines 222-226). -/
structure HistEntry where
  fen : String
  move : String
  timestamp : Int
deriving DecidableEq

/-- A decoded inbound WebSocket frame as far as the handler inspects it:
the `t` tag, `d.fen` when present as a string, and `d.ply` when present
(`none` models JS `undefined`). -/
structure WsFrame where
  t : String
  fen : Option String
  ply : Option Int
deriving DecidableEq

/-- The script's module-level mutable variables (source lines 22-30)
together with observation lists: engine commands posted, frames sent on
the socket, scheduled dispatch timers `(delay, move)`, log lines and
console-error lines. -/
structure ScriptState where
  webSocketWrapper : Option WSConn
  currentFen : String
  bestMove : Option String
  isEngineReady : Bool
  isCalculating : Bool
  lastCalculatedFen : Option String
  moveHistory : List HistEntry
  settings : Settings
  engineCmds : List String
  sentFrames : List Frame
  pendingDispatches : List (Int × String)
  logs : List String
  errors : List String
deriving DecidableEq

/-- The position string the tracker builds from an inbound state update
(source lines 126-133): take `d.fen`, append `" w"` or `" b"` from the
parity of `d.ply` (defaulted to `0` when absent), then complete it. -/
def trackerFen (fen : String) (ply : Option Int) : String :=
  completeFen (fen ++ (if (ply.getD 0) % 2 = 0 then " w" else " b"))

/-- Function `calculateMove` (source lines 254-272): a no-op unless the engine is
ready, a position is known, no calculation is running and the position
differs from the last submitted one; otherwise marks `isCalculating`,
records the position and posts the `position fen`/`go` commands. -/
def calculateMove (s : ScriptState) : ScriptState :=
  if ¬ s.isEngineReady ∨ s.currentFen = "" ∨ s.isCalculating then s
  else if s.lastCalculatedFen = some s.currentFen then s
  else
    { s with
      isCalculating := true,
      lastCalculatedFen := some s.currentFen,
      engineCmds := s.engineCmds ++
        ["position fen " ++ s.currentFen,
         "go depth " ++ toString s.settings.depth ++ " movetime " ++
           toString s.settings.timeLimitMs] }

/-- The WebSocket `message` listener (source lines 114-150): on a
`d`/`move` frame carrying a string `fen`, update `currentFen` via
`trackerFen` and, when the engine is ready and idle, run
`calculateMove`; on an `end`/`endData` frame clear `bestMove`. -/
def handleWsMessage (s : ScriptState) (f : WsFrame) : ScriptState :=
  if f.t = "d" ∨ f.t = "move" then
    match f.fen with
    | some fen =>
      let s1 := { s with currentFen := trackerFen fen f.ply }
      if s1.isEngineReady ∧ ¬ s1.isCalculating then calculateMove s1 else s1
    | none => s
  else if f.t = "end" ∨ f.t = "endData" then
    { s with bestMove := none, logs := s.logs ++ ["Game ended"] }
  else s

/-- The delay computed by `sendMoveWithDelay` (source lines 315-322),
with `Math.random()` modelled as an exact rational `r` in `[0, 1)`:
`Math.floor(r * (maxDelay - minDelay)) + minDelay` under humanized
timing, `minDelay` otherwise. -/
def computeDelay (st : Settings) (r : ℚ) : Int :=
  if st.humanLikeTiming then
    ⌊r * ((st.maxDelay : ℚ) - (st.minDelay : ℚ))⌋ + st.minDelay
  else st.minDelay

/-- Function `sendMoveWithDelay` (source lines 314-331): compute the delay and
schedule a single `sendMove(move)` timer; no other state changes. -/
def sendMoveWithDelay (s : ScriptState) (move : String) (r : ℚ) : ScriptState :=
  { s with pendingDispatches :=
      s.pendingDispatches ++ [(computeDelay s.settings r, move)] }

/-- Function `sendMove` (source lines 278-312): fail (returning `false`, with a
log line) when no socket is tracked or it is not open, or when the move
is falsy or shorter than 4 characters; fail with a console error when
`send` throws.  Only on the success path is the frame recorded,
`bestMove` cleared and `true` returned. -/
def sendMove (s : ScriptState) (move : String) : ScriptState × Bool :=
  match s.webSocketWrapper with
  | none =>
    ({ s with logs := s.logs ++ ["Cannot send move: WebSocket not connected"] }, false)
  | some ws =>
    if ws.readyState ≠ 1 then
      ({ s with logs := s.logs ++ ["Cannot send move: WebSocket not connected"] }, false)
    else if move = "" ∨ move.length < 4 then
      ({ s with logs := s.logs ++ ["Invalid move format"] }, false)
    else if ws.sendThrows then
      ({ s with errors := s.errors ++ ["Failed to send move"] }, false)
    else
      ({ s with
          sentFrames := s.sentFrames ++ [{ t := "move", u := move, b := 1, l := 10000, a := 1 }],
          bestMove := none,
          logs := s.logs ++ ["Move sent: " ++ move] }, true)

/-- Expiry of the oldest scheduled dispatch timer: run `sendMove` on its
captured move (the body of the `setTimeout` callback, lines 327-330).
Returns the new state and the boolean result of `sendMove`. -/
def fireDispatch (s : ScriptState) : ScriptState × Bool :=
  match s.pendingDispatches with
  | [] => (s, false)
  | (_, move) :: rest => sendMove { s with pendingDispatches := rest } move

/-- The engine `onmessage` handler (source lines 209-252).  On a line
containing `bestmove`: clear `isCalculating`, store the second field as
`bestMove`; when that token is truthy and not `(none)`, append a history
entry (ring buffer of 50) and, if auto-move is enabled, schedule a
dispatch.  Other lines leave the core state unchanged. -/
def onEngineMessage (s : ScriptState) (message : String) (now : Int) (r : ℚ) :
    ScriptState :=
  if jsIncludes message "bestmove" then
    let bm := secondField message
    let s1 := { s with isCalculating := false, bestMove := bm }
    match bm with
    | some mv =>
      if mv ≠ "" ∧ mv ≠ "(none)" then
        let hist := s1.moveHistory ++ [{ fen := s1.currentFen, move := mv, timestamp := now }]
        let s2 := { s1 with moveHistory := if hist.length > 50 then hist.tail else hist }
        if s2.settings.autoMove then sendMoveWithDelay s2 mv r else s2
      else s1
    | none => s1
  else s

/-- The Play-Move button handler (source lines 693-699): schedule a
dispatch of the stored `bestMove` when it is truthy, otherwise log. -/
def playButtonHandler (s : ScriptState) (r : ℚ) : ScriptState :=
  match s.bestMove with
  | some mv =>
    if mv ≠ "" then sendMoveWithDelay s mv r
    else { s with logs := s.logs ++ ["No move to play"] }
  | none => { s with logs := s.logs ++ ["No move to play"] }

/-- JS `parseInt(v) || d`: the parsed input is `none` for `NaN`, and a
parsed `0` is falsy, so both fall back to the default. -/
def jsParseOr (v : Option Int) (d : Int) : Int :=
  match v with
  | none => d
  | some 0 => d
  | some n => n

/-- The min-delay input handler (source lines 671-675):
`settings.minDelay = Math.max(100, parseInt(v) || 500)`. -/
def minDelayChange (st : Settings) (v : Option Int) : Settings :=
  { st with minDelay := max 100 (jsParseOr v 500) }

/-- The max-delay input handler (source lines 678-682):
`settings.maxDelay = Math.max(settings.minDelay + 100, parseInt(v) || 2000)`. -/
def maxDelayChange (st : Settings) (v : Option Int) : Settings :=
  { st with maxDelay := max (st.minDelay + 100) (jsParseOr v 2000) }

/-- The configuration invariant claimed by the spec for dispatch timing. -/
def delayInvariant (st : Settings) : Prop :=
  st.maxDelay ≥ st.minDelay + 100

/-- A ready, idle state with an open socket and auto-move enabled, used
as the concrete start state of several scenarios. -/
def baseState : ScriptState :=
  { webSocketWrapper := some { readyState := 1, sendThrows := false },
    currentFen := "",
    bestMove := none,
    isEngineReady := true,
    isCalculating := false,
    lastCalculatedFen := none,
    moveHistory := [],
    settings := { defaultSettings with autoMove := true },
    engineCmds := [],
    sentFrames := [],
    pendingDispatches := [],
    logs := [],
    errors := [] }

/-! ### Properties of the split/join model -/

theorem splitChar_ne_nil (l : List Char) : splitChar l ≠ [] := by
  induction l with
  | nil => simp [splitChar]
  | cons c rest ih =>
    simp only [splitChar]
    by_cases hc : c = ' '
    · simp [hc]
    · rw [if_neg hc]
      cases h : splitChar rest with
      | nil => simp
      | cons a t => simp

theorem no_space_of_mem_splitChar (l : List Char) :
    ∀ p ∈ splitChar l, ' ' ∉ p := by
  induction l with
  | nil =>
    intro p hp
    simp [splitChar] at hp
    simp [hp]
  | cons c rest ih =>
    intro p hp
    simp only [splitChar] at hp
    by_cases hc : c = ' '
    · rw [if_pos hc] at hp
      rcases List.mem_cons.mp hp with h | h
      · simp [h]
      · exact ih p h
    · rw [if_neg hc] at hp
      cases h : splitChar rest with
      | nil => exact absurd h (splitChar_ne_nil rest)
      | cons a t =>
        rw [h] at hp
        rcases List.mem_cons.mp hp with h2 | h2
        · subst h2
          intro hmem
          rcases List.mem_cons.mp hmem with h3 | h3
          · exact hc h3.symm
          · exact ih a (h ▸ List.mem_cons_self a t) h3
        · exact ih p (h ▸ List.mem_cons.mpr (Or.inr h2))

theorem splitChar_eq_single (l : List Char) (h : ' ' ∉ l) : splitChar l = [l] := by
  induction l with
  | nil => rfl
  | cons c rest ih =>
    have hc : ¬ c = ' ' := fun e => h (by rw [e]; exact List.mem_cons_self _ _)
    have h2 : ' ' ∉ rest := fun hm => h (List.mem_cons_of_mem c hm)
    simp only [splitChar, if_neg hc]
    rw [ih h2]

theorem splitChar_append_space (a r : List Char) (h : ' ' ∉ a) :
    splitChar (a ++ ' ' :: r) = a :: splitChar r := by
  induction a with
  | nil => simp [splitChar]
  | cons c as ih =>
    have hc : ¬ c = ' ' := fun e => h (by rw [e]; exact List.mem_cons_self _ _)
    have h2 : ' ' ∉ as := fun hm => h (List.mem_cons_of_mem c hm)
    simp only [List.cons_append, splitChar, if_neg hc]
    rw [List.append_eq, ih h2]

theorem splitChar_joinChar (parts : List (List Char)) (h1 : parts ≠ [])
    (h2 : ∀ p ∈ parts, ' ' ∉ p) : splitChar (joinChar parts) = parts := by
  induction parts with
  | nil => exact absurd rfl h1
  | cons p rest ih =>
    cases rest with
    | nil =>
      simp only [joinChar]
      exact splitChar_eq_single p (h2 p (List.mem_cons_self _ _))
    | cons q t =>
      have he : joinChar (p :: q :: t) = p ++ ' ' :: joinChar (q :: t) := rfl
      rw [he, splitChar_append_space p _ (h2 p (List.mem_cons_self _ _)),
        ih (by simp) (fun x hx => h2 x (List.mem_cons_of_mem p hx))]

theorem jsSplit_jsJoin (parts : List String) (h1 : parts ≠ [])
    (h2 : ∀ p ∈ parts, ' ' ∉ p.data) : jsSplit (jsJoin parts) = parts := by
  show (splitChar (joinChar (parts.map String.data))).map String.mk = parts
  rw [splitChar_joinChar (parts.map String.data)
    (by intro e; exact h1 (List.map_eq_nil_iff.mp e))
    (by intro p hp
        rcases List.mem_map.mp hp with ⟨s, hs, rfl⟩
        exact h2 s hs)]
  rw [List.map_map]
  have he : String.mk ∘ String.data = id := funext fun s => rfl
  rw [he, List.map_id]

theorem no_space_of_mem_jsSplit (s : String) : ∀ p ∈ jsSplit s, ' ' ∉ p.data := by
  intro p hp
  rcases List.mem_map.mp hp with ⟨piece, hpiece, rfl⟩
  exact no_space_of_mem_splitChar s.data piece hpiece

theorem completeFenParts_eq (l : List String) (h2 : 2 ≤ l.length) (h6 : l.length ≤ 6) :
    completeFenParts l = l ++ (["-", "-", "0", "1"].drop (l.length - 2)) := by
  have hcase : l.length = 2 ∨ l.length = 3 ∨ l.length = 4 ∨ l.length = 5 ∨ l.length = 6 := by
    omega
  rcases hcase with h | h | h | h | h <;>
    simp [completeFenParts, h, List.length_append]

theorem completeFen_of_six (y : String) (h : (jsSplit y).length = 6) :
    completeFen y = y := by
  simp [completeFen, h]

/-- Claim C3: for every input with 2 to 6 space-separated fields,
`completeFen` returns a string with exactly 6 fields, the fields already
present are unaltered, the missing fields are filled left to right with
`-`, `-`, `0`, `1`, and `completeFen` is idempotent. -/
theorem completeFen_twoToSixFields (x : String)
    (hlow : 2 ≤ (jsSplit x).length) (hhigh : (jsSplit x).length ≤ 6) :
    (jsSplit (completeFen x)).length = 6
    ∧ jsSplit (completeFen x)
        = jsSplit x ++ (["-", "-", "0", "1"].drop ((jsSplit x).length - 2))
    ∧ completeFen (completeFen x) = completeFen x := by
  by_cases h6 : (jsSplit x).length = 6
  · have hx : completeFen x = x := by simp [completeFen, h6]
    refine ⟨by rw [hx]; exact h6, ?_, by rw [hx, hx]⟩
    rw [hx, h6]
    simp
  · have hsplit : jsSplit (completeFen x)
        = jsSplit x ++ (["-", "-", "0", "1"].drop ((jsSplit x).length - 2)) := by
      have hx : completeFen x = jsJoin (completeFenParts (jsSplit x)) := by
        simp [completeFen, h6]
      rw [hx, completeFenParts_eq _ hlow hhigh, jsSplit_jsJoin]
      · intro hnil
        have hne : jsSplit x ≠ [] := by
          intro e
          rw [e] at hlow
          simp at hlow
        exact hne (List.append_eq_nil.mp hnil).1
      · intro p hp
        rcases List.mem_append.mp hp with h | h
        · exact no_space_of_mem_jsSplit x p h
        · have hmem := List.mem_of_mem_drop h
          fin_cases hmem <;> decide
    have hlen : (jsSplit (completeFen x)).length = 6 := by
      rw [hsplit, List.length_append, List.length_drop]
      have h4 : (["-", "-", "0", "1"] : List String).length = 4 := rfl
      rw [h4]
      omega
    exact ⟨hlen, hsplit, completeFen_of_six _ hlen⟩

/-- Witness for C3 at the concrete two-field input `"8/8 w"`. -/
theorem completeFen_twoToSixFields_witness :
    (jsSplit (completeFen "8/8 w")).length = 6
    ∧ jsSplit (completeFen "8/8 w")
        = jsSplit "8/8 w" ++ (["-", "-", "0", "1"].drop ((jsSplit "8/8 w").length - 2))
    ∧ completeFen (completeFen "8/8 w") = completeFen "8/8 w" :=
  completeFen_twoToSixFields "8/8 w" (by decide) (by decide)

/-! ### Position Tracker claims -/

theorem calculateMove_currentFen (s : ScriptState) :
    (calculateMove s).currentFen = s.currentFen := by
  unfold calculateMove
  split
  · rfl
  · split
    · rfl
    · rfl

theorem handleWsMessage_currentFen (s : ScriptState) (f : WsFrame) (fen : String)
    (ht : f.t = "d" ∨ f.t = "move") (hf : f.fen = some fen) :
    (handleWsMessage s f).currentFen = trackerFen fen f.ply := by
  unfold handleWsMessage
  rw [if_pos ht, hf]
  dsimp only
  split
  · exact calculateMove_currentFen _
  · rfl

/-- A state-update frame whose partial position has a single field. -/
def shortFenFrame : WsFrame := { t := "move", fen := some "8/8", ply := some 0 }

/-- Claim C4 counterexample: a descriptor with fewer than 2 fields is not
rejected — starting from a ready, idle state, the frame carrying the
one-field position `8/8` is completed to six fields and submitted to the
engine. -/
theorem trackerAcceptsShortFen :
    (jsSplit "8/8").length < 2
    ∧ (handleWsMessage baseState shortFenFrame).currentFen = "8/8 w - - 0 1"
    ∧ (jsSplit (handleWsMessage baseState shortFenFrame).currentFen).length = 6
    ∧ (handleWsMessage baseState shortFenFrame).engineCmds
        = ["position fen 8/8 w - - 0 1", "go depth 4 movetime 1000"] := by
  decide

/-- Claim C4 amended: the tracker performs no minimum-field check.  Even
for a descriptor with fewer than 2 fields, the side-to-move indicator is
appended (making at least 2 fields), the result is completed, and it is
submitted to the engine whenever the engine is ready and idle and the
completed position is new. -/
theorem trackerAcceptsShortFen_general (s : ScriptState) (f : WsFrame) (fen : String)
    (ht : f.t = "d" ∨ f.t = "move") (hf : f.fen = some fen)
    (hshort : (jsSplit fen).length < 2)
    (hready : s.isEngineReady = true) (hcalc : s.isCalculating = false)
    (hne : trackerFen fen f.ply ≠ "")
    (hlast : s.lastCalculatedFen ≠ some (trackerFen fen f.ply)) :
    (handleWsMessage s f).currentFen = trackerFen fen f.ply
    ∧ (handleWsMessage s f).engineCmds
        = s.engineCmds ++
          ["position fen " ++ trackerFen fen f.ply,
           "go depth " ++ toString s.settings.depth ++ " movetime " ++
             toString s.settings.timeLimitMs] := by
  unfold handleWsMessage
  rw [if_pos ht, hf]
  dsimp only
  rw [if_pos (by simp [hready, hcalc])]
  unfold calculateMove
  rw [if_neg (by simp [hready, hcalc, hne]), if_neg (by simpa using hlast)]
  exact ⟨rfl, rfl⟩

/-- Witness for the amended C4 at the ready base state and the one-field
descriptor `8/8`. -/
theorem trackerAcceptsShortFen_general_witness :
    (handleWsMessage baseState shortFenFrame).currentFen
      = trackerFen "8/8" shortFenFrame.ply
    ∧ (handleWsMessage baseState shortFenFrame).engineCmds
        = baseState.engineCmds ++
          ["position fen " ++ trackerFen "8/8" shortFenFrame.ply,
           "go depth " ++ toString baseState.settings.depth ++ " movetime " ++
             toString baseState.settings.timeLimitMs] :=
  trackerAcceptsShortFen_general baseState shortFenFrame "8/8" (Or.inr rfl) rfl
    (by decide) rfl rfl (by decide) (by decide)

/-- A state-update frame whose partial position already carries a
side-to-move indicator. -/
def doubledTurnFrame : WsFrame := { t := "move", fen := some "8/8 b", ply := some 0 }

/-- Claim C5 counterexample: the indicator is appended even when one is
already present — for the position `8/8 b` at ply 0 the tracker stores
`8/8 b w - 0 1` (a second indicator was appended), not the completion of
the untouched descriptor. -/
theorem sideIndicatorAppendedWhenPresent :
    (handleWsMessage baseState doubledTurnFrame).currentFen = "8/8 b w - 0 1"
    ∧ (handleWsMessage baseState doubledTurnFrame).currentFen ≠ completeFen "8/8 b" := by
  decide

/-- Claim C5 amended: the side-to-move indicator derived from `ply mod 2`
(even plies give `w`, odd plies give `b`) is always appended, regardless
of whether one is already present in the partial position. -/
theorem sideIndicatorAlwaysAppended (s : ScriptState) (f : WsFrame) (fen : String)
    (p : Int) (ht : f.t = "d" ∨ f.t = "move") (hf : f.fen = some fen)
    (hp : f.ply = some p) :
    (handleWsMessage s f).currentFen
      = completeFen (fen ++ (if p % 2 = 0 then " w" else " b"))
    ∧ (p % 2 = 0 → (handleWsMessage s f).currentFen = completeFen (fen ++ " w"))
    ∧ (p % 2 ≠ 0 → (handleWsMessage s f).currentFen = completeFen (fen ++ " b")) := by
  have hmain := handleWsMessage_currentFen s f fen ht hf
  rw [hp] at hmain
  refine ⟨by rw [hmain]; simp [trackerFen], ?_, ?_⟩
  · intro he
    rw [hmain]
    simp [trackerFen, he]
  · intro he
    rw [hmain]
    simp [trackerFen, he]

/-- Witness for the amended C5: for `8/8 b` at the even ply 0 the stored
position is the completed descriptor with `w` appended after the already
present `b`. -/
theorem sideIndicatorAlwaysAppended_witness :
    (handleWsMessage baseState doubledTurnFrame).currentFen
      = completeFen ("8/8 b" ++ (if (0 : Int) % 2 = 0 then " w" else " b")) :=
  (sideIndicatorAlwaysAppended baseState doubledTurnFrame "8/8 b" 0
    (Or.inr rfl) rfl rfl).1

/-- A state-update frame carrying a fen but no ply. -/
def noPlyFrame : WsFrame := { t := "d", fen := some "rnbqkbnr/pppppppp/8/8/8/8/PPPPPPPP/RNBQKBNR", ply := none }

/-- Claim C9: when a state-update frame carries a fen but no ply field,
the ply is treated as 0 and the derived side-to-move indicator is `w`. -/
theorem missingPlyDefaultsToWhite (s : ScriptState) (f : WsFrame) (fen : String)
    (ht : f.t = "d" ∨ f.t = "move") (hf : f.fen = some fen) (hp : f.ply = none) :
    (handleWsMessage s f).currentFen = completeFen (fen ++ " w") := by
  rw [handleWsMessage_currentFen s f fen ht hf, hp]
  simp [trackerFen]

/-- Witness for C9 at a frame with no ply field. -/
theorem missingPlyDefaultsToWhite_witness :
    (handleWsMessage baseState noPlyFrame).currentFen
      = completeFen ("rnbqkbnr/pppppppp/8/8/8/8/PPPPPPPP/RNBQKBNR" ++ " w") :=
  missingPlyDefaultsToWhite baseState noPlyFrame
    "rnbqkbnr/pppppppp/8/8/8/8/PPPPPPPP/RNBQKBNR" (Or.inl rfl) rfl rfl

/-! ### Engine Adapter admission claims -/

/-- A ready idle state that already knows a completed position. -/
def readyFenState : ScriptState :=
  { baseState with currentFen := "8/8 w - - 0 1" }

/-- Claim C6: `calculateMove` is a no-op when the engine is not ready,
when a calculation is in progress, or when the current position equals
the last submitted one; and when a submission does happen, an immediately
repeated identical position produces no second submission — neither while
the calculation is still running nor after it has finished. -/
theorem calculateMoveAdmission :
    (∀ s : ScriptState, s.isEngineReady = false → calculateMove s = s)
    ∧ (∀ s : ScriptState, s.isCalculating = true → calculateMove s = s)
    ∧ (∀ s : ScriptState, s.lastCalculatedFen = some s.currentFen → calculateMove s = s)
    ∧ (∀ s : ScriptState, s.isEngineReady = true → s.isCalculating = false →
        s.currentFen ≠ "" → s.lastCalculatedFen ≠ some s.currentFen →
        (calculateMove s).engineCmds
            = s.engineCmds ++
              ["position fen " ++ s.currentFen,
               "go depth " ++ toString s.settings.depth ++ " movetime " ++
                 toString s.settings.timeLimitMs]
          ∧ calculateMove (calculateMove s) = calculateMove s
          ∧ calculateMove { calculateMove s with isCalculating := false }
              = { calculateMove s with isCalculating := false }) := by
  refine ⟨?_, ?_, ?_, ?_⟩
  · intro s h
    unfold calculateMove
    rw [if_pos (Or.inl (by simp [h]))]
  · intro s h
    unfold calculateMove
    rw [if_pos (Or.inr (Or.inr (by simp [h])))]
  · intro s h
    unfold calculateMove
    split
    · rfl
    · rfl
  · intro s h1 h2 h3 h4
    have hstep : calculateMove s
        = { s with
            isCalculating := true,
            lastCalculatedFen := some s.currentFen,
            engineCmds := s.engineCmds ++
              ["position fen " ++ s.currentFen,
               "go depth " ++ toString s.settings.depth ++ " movetime " ++
                 toString s.settings.timeLimitMs] } := by
      unfold calculateMove
      rw [if_neg (by simp [h1, h2, h3]), if_neg h4]
    refine ⟨by rw [hstep], ?_, ?_⟩
    · rw [hstep]
      unfold calculateMove
      rw [if_pos (Or.inr (Or.inr (by simp)))]
    · rw [hstep]
      unfold calculateMove
      rw [if_neg (by simp [h1, h3]), if_pos (by simp)]

/-- Witness for C6: the three no-op guards and the single-submission
behaviour at concrete states. -/
theorem calculateMoveAdmission_witness :
    calculateMove { baseState with isEngineReady := false }
      = { baseState with isEngineReady := false }
    ∧ calculateMove { baseState with isCalculating := true }
      = { baseState with isCalculating := true }
    ∧ calculateMove { baseState with lastCalculatedFen := some baseState.currentFen }
      = { baseState with lastCalculatedFen := some baseState.currentFen }
    ∧ ((calculateMove readyFenState).engineCmds
        = readyFenState.engineCmds ++
          ["position fen " ++ readyFenState.currentFen,
           "go depth " ++ toString readyFenState.settings.depth ++ " movetime " ++
             toString readyFenState.settings.timeLimitMs]
      ∧ calculateMove (calculateMove readyFenState) = calculateMove readyFenState
      ∧ calculateMove { calculateMove readyFenState with isCalculating := false }
          = { calculateMove readyFenState with isCalculating := false }) :=
  ⟨calculateMoveAdmission.1 _ rfl,
   calculateMoveAdmission.2.1 _ rfl,
   calculateMoveAdmission.2.2.1 _ rfl,
   calculateMoveAdmission.2.2.2 readyFenState rfl rfl (by decide) (by decide)⟩

/-- Claim C10: every engine output line containing `bestmove` clears the
calculating flag, returning the adapter to the idle admission state, even
when the reported token is `(none)` or missing. -/
theorem bestmoveClearsCalculating (s : ScriptState) (msg : String) (now : Int)
    (r : ℚ) (h : jsIncludes msg "bestmove" = true) :
    (onEngineMessage s msg now r).isCalculating = false := by
  unfold onEngineMessage
  rw [if_pos h]
  dsimp only
  split
  · split
    · split
      · simp [sendMoveWithDelay]
      · rfl
    · rfl
  · rfl

/-- A state in which a calculation is outstanding. -/
def calcState : ScriptState := { baseState with isCalculating := true }

/-- Witness for C10 at the terminal line `bestmove (none)`. -/
theorem bestmoveClearsCalculating_witness :
    (onEngineMessage calcState "bestmove (none)" 0 0).isCalculating = false :=
  bestmoveClearsCalculating calcState "bestmove (none)" 0 0 (by decide)

/-! ### Dispatch claims -/

/-- Claim C1 counterexample: after the terminal line `bestmove (none)`,
the stored move field is the string `(none)` (not null or empty), and the
manual Play-Move path dispatches it through the open socket — a move
frame carrying `(none)` is sent and `sendMove` reports success. -/
theorem noneTokenIsStoredAndManuallyDispatched :
    (onEngineMessage calcState "bestmove (none)" 0 0).bestMove = some "(none)"
    ∧ (fireDispatch (playButtonHandler
        (onEngineMessage calcState "bestmove (none)" 0 0) 0)).2 = true
    ∧ (fireDispatch (playButtonHandler
        (onEngineMessage calcState "bestmove (none)" 0 0) 0)).1.sentFrames
        = [{ t := "move", u := "(none)", b := 1, l := 10000, a := 1 }] := by
  decide

theorem sendMove_open (s : ScriptState) (mv : String)
    (hws : s.webSocketWrapper = some { readyState := 1, sendThrows := false })
    (hne : mv ≠ "") (hlen : ¬ mv.length < 4) :
    sendMove s mv
      = ({ s with
           sentFrames := s.sentFrames ++ [{ t := "move", u := mv, b := 1, l := 10000, a := 1 }],
           bestMove := none,
           logs := s.logs ++ ["Move sent: " ++ mv] }, true) := by
  unfold sendMove
  rw [hws]
  dsimp only
  rw [if_neg (by simp), if_neg (by simp [hne, hlen]), if_neg (by simp)]

/-- Claim C1 amended: a terminal line whose move token is `(none)` is
never dispatched by the auto-dispatch path and records no history entry,
but the stored move field is set to the string `(none)` rather than left
null/empty, and a later manual dispatch of the stored result does send a
`(none)` move frame whenever the connection is open, because `(none)`
passes the length-at-least-4 validation. -/
theorem noneTokenBlocksAutoDispatchOnly (s : ScriptState) (msg : String)
    (now : Int) (r r' : ℚ)
    (hbm : jsIncludes msg "bestmove" = true)
    (htok : secondField msg = some "(none)")
    (hpd : s.pendingDispatches = [])
    (hws : s.webSocketWrapper = some { readyState := 1, sendThrows := false }) :
    (onEngineMessage s msg now r).pendingDispatches = []
    ∧ (onEngineMessage s msg now r).moveHistory = s.moveHistory
    ∧ (onEngineMessage s msg now r).sentFrames = s.sentFrames
    ∧ (onEngineMessage s msg now r).bestMove = some "(none)"
    ∧ (fireDispatch (playButtonHandler (onEngineMessage s msg now r) r')).2 = true
    ∧ (fireDispatch (playButtonHandler (onEngineMessage s msg now r) r')).1.sentFrames
        = s.sentFrames ++ [{ t := "move", u := "(none)", b := 1, l := 10000, a := 1 }] := by
  have hstep : onEngineMessage s msg now r
      = { s with isCalculating := false, bestMove := some "(none)" } := by
    unfold onEngineMessage
    rw [if_pos hbm, htok]
    dsimp only
    rw [if_neg (by simp)]
  have hplay : playButtonHandler
        { s with isCalculating := false, bestMove := some "(none)" } r'
      = { s with
          isCalculating := false,
          bestMove := some "(none)",
          pendingDispatches := s.pendingDispatches ++ [(computeDelay s.settings r', "(none)")] } := by
    unfold playButtonHandler
    dsimp only
    rw [if_pos (by decide)]
    rfl
  have hall : fireDispatch (playButtonHandler (onEngineMessage s msg now r) r')
      = ({ s with
           isCalculating := false,
           bestMove := none,
           pendingDispatches := [],
           sentFrames := s.sentFrames ++ [{ t := "move", u := "(none)", b := 1, l := 10000, a := 1 }],
           logs := s.logs ++ ["Move sent: " ++ "(none)"] }, true) := by
    rw [hstep, hplay, hpd, List.nil_append]
    simp only [fireDispatch]
    exact sendMove_open _ "(none)" hws (by decide) (by decide)
  refine ⟨?_, ?_, ?_, ?_, ?_, ?_⟩
  · rw [hstep]
    exact hpd
  · rw [hstep]
  · rw [hstep]
  · rw [hstep]
  · rw [hall]
  · rw [hall]

/-- Witness for the amended C1 at the concrete calculating state with an
open socket. -/
theorem noneTokenBlocksAutoDispatchOnly_witness :
    (onEngineMessage calcState "bestmove (none)" 0 0).pendingDispatches = []
    ∧ (onEngineMessage calcState "bestmove (none)" 0 0).moveHistory
        = calcState.moveHistory
    ∧ (onEngineMessage calcState "bestmove (none)" 0 0).sentFrames
        = calcState.sentFrames
    ∧ (onEngineMessage calcState "bestmove (none)" 0 0).bestMove = some "(none)"
    ∧ (fireDispatch (playButtonHandler
        (onEngineMessage calcState "bestmove (none)" 0 0) 0)).2 = true
    ∧ (fireDispatch (playButtonHandler
        (onEngineMessage calcState "bestmove (none)" 0 0) 0)).1.sentFrames
        = calcState.sentFrames ++ [{ t := "move", u := "(none)", b := 1, l := 10000, a := 1 }] :=
  noneTokenBlocksAutoDispatchOnly calcState "bestmove (none)" 0 0 0
    (by decide) (by decide) rfl rfl

/-- A state holding a stored best move, a scheduled dispatch of it, and a
closed connection. -/
def closedSocketState : ScriptState :=
  { baseState with
    webSocketWrapper := none,
    bestMove := some "e2e4",
    pendingDispatches := [(500, "e2e4")] }

/-- Claim C2 counterexample: when the scheduled dispatch fires with the
connection closed, `send` fails — and the stored move is *not* cleared:
`bestMove` still holds `e2e4` afterwards, so the move was not discarded. -/
theorem failedSendKeepsStoredMove :
    (fireDispatch closedSocketState).2 = false
    ∧ (fireDispatch closedSocketState).1.bestMove = some "e2e4"
    ∧ (fireDispatch closedSocketState).1.sentFrames = []
    ∧ (fireDispatch closedSocketState).1.pendingDispatches = [] := by
  decide

theorem sendMove_outcome (s : ScriptState) (mv : String) :
    (sendMove s mv).1.pendingDispatches = s.pendingDispatches
    ∧ ((sendMove s mv).2 = true → (sendMove s mv).1.bestMove = none)
    ∧ ((sendMove s mv).2 = false →
        (sendMove s mv).1.bestMove = s.bestMove
        ∧ (sendMove s mv).1.sentFrames = s.sentFrames
        ∧ (sendMove s mv).1.logs.length + (sendMove s mv).1.errors.length
            = s.logs.length + s.errors.length + 1) := by
  unfold sendMove
  cases s.webSocketWrapper with
  | none =>
    simp
    omega
  | some ws =>
    dsimp only
    split
    · simp
      omega
    · split
      · simp
        omega
      · split
        · simp
          omega
        · simp

/-- Claim C2 amended: when a scheduled dispatch fires, exactly that one
timer is consumed and no retry is scheduled; the stored best move is
cleared only when the send succeeded, while on a failed send the failure
is reported (exactly one log or error line), no frame is sent, and the
stored move is retained rather than discarded. -/
theorem dispatchClearsOnlyOnSuccess (s : ScriptState) (d : Int) (mv : String)
    (rest : List (Int × String)) (h : s.pendingDispatches = (d, mv) :: rest) :
    (fireDispatch s).1.pendingDispatches = rest
    ∧ ((fireDispatch s).2 = true → (fireDispatch s).1.bestMove = none)
    ∧ ((fireDispatch s).2 = false →
        (fireDispatch s).1.bestMove = s.bestMove
        ∧ (fireDispatch s).1.sentFrames = s.sentFrames
        ∧ (fireDispatch s).1.logs.length + (fireDispatch s).1.errors.length
            = s.logs.length + s.errors.length + 1) := by
  unfold fireDispatch
  rw [h]
  dsimp only
  exact sendMove_outcome { s with pendingDispatches := rest } mv

/-- Witness for the amended C2 at the closed-socket state: the timer is
consumed, the send fails, and the stored move survives. -/
theorem dispatchClearsOnlyOnSuccess_witness :
    (fireDispatch closedSocketState).1.pendingDispatches = []
    ∧ ((fireDispatch closedSocketState).2 = true
        → (fireDispatch closedSocketState).1.bestMove = none)
    ∧ ((fireDispatch closedSocketState).2 = false →
        (fireDispatch closedSocketState).1.bestMove = closedSocketState.bestMove
        ∧ (fireDispatch closedSocketState).1.sentFrames = closedSocketState.sentFrames
        ∧ (fireDispatch closedSocketState).1.logs.length
            + (fireDispatch closedSocketState).1.errors.length
            = closedSocketState.logs.length + closedSocketState.errors.length + 1) :=
  dispatchClearsOnlyOnSuccess closedSocketState 500 "e2e4" [] rfl

/-! ### Configuration and timing claims -/

/-- Claim C7 counterexample: starting from the valid default settings,
writing `minDelay = 5000` through its change handler yields
`minDelay = 5000, maxDelay = 2000`, violating
`maxDelay ≥ minDelay + 100` immediately after a configuration write. -/
theorem minDelayWriteBreaksInvariant :
    delayInvariant defaultSettings
    ∧ (minDelayChange defaultSettings (some 5000)).minDelay = 5000
    ∧ (minDelayChange defaultSettings (some 5000)).maxDelay = 2000
    ∧ ¬ delayInvariant (minDelayChange defaultSettings (some 5000)) := by
  unfold delayInvariant
  decide

/-- Claim C7 amended: only the max-delay write handler enforces the
invariant, clamping `maxDelay` to at least `minDelay + 100`; the
min-delay write handler clamps only from below at 100 and leaves
`maxDelay` untouched, so a min-delay write can break the invariant. -/
theorem delayClampOnlyOnMaxWrite (st : Settings) (v : Option Int) :
    delayInvariant (maxDelayChange st v)
    ∧ (maxDelayChange st v).minDelay = st.minDelay
    ∧ (minDelayChange st v).minDelay ≥ 100
    ∧ (minDelayChange st v).maxDelay = st.maxDelay :=
  ⟨le_max_left _ _, rfl, le_max_left _ _, rfl⟩

/-- Witness for the amended C7 at the default settings with input 5000. -/
theorem delayClampOnlyOnMaxWrite_witness :
    delayInvariant (maxDelayChange defaultSettings (some 5000))
    ∧ (maxDelayChange defaultSettings (some 5000)).minDelay = defaultSettings.minDelay
    ∧ (minDelayChange defaultSettings (some 5000)).minDelay ≥ 100
    ∧ (minDelayChange defaultSettings (some 5000)).maxDelay = defaultSettings.maxDelay :=
  delayClampOnlyOnMaxWrite defaultSettings (some 5000)

/-- Settings with humanized timing and equal delay bounds. -/
def eqDelaySettings : Settings :=
  { defaultSettings with humanLikeTiming := true, maxDelay := 500 }

/-- Claim C8 counterexample: with humanized timing and
`maxDelay = minDelay = 500` (which satisfies the claim's premise
`maxDelay ≥ minDelay`), the computed delay is 500, which does not lie in
the half-open interval `[minDelay, maxDelay) = [500, 500)`. -/
theorem delayAtEqualBoundsEscapesInterval :
    eqDelaySettings.humanLikeTiming = true
    ∧ eqDelaySettings.maxDelay ≥ eqDelaySettings.minDelay
    ∧ computeDelay eqDelaySettings 0 = 500
    ∧ ¬ (computeDelay eqDelaySettings 0 < eqDelaySettings.maxDelay) := by
  have hc : computeDelay eqDelaySettings 0 = 500 := by
    simp [computeDelay, eqDelaySettings, defaultSettings]
  refine ⟨rfl, by decide, hc, by rw [hc]; decide⟩

/-- Claim C8 amended: with humanized timing the computed delay is an
integer in `[minDelay, maxDelay)` provided `maxDelay > minDelay`; when
the bounds are equal the delay is exactly `minDelay` (outside the empty
interval); without humanized timing the delay is always exactly
`minDelay`. -/
theorem computeDelayBounds (st : Settings) (r : ℚ) (h0 : 0 ≤ r) (h1 : r < 1) :
    (st.humanLikeTiming = true → st.minDelay < st.maxDelay →
      st.minDelay ≤ computeDelay st r ∧ computeDelay st r < st.maxDelay)
    ∧ (st.humanLikeTiming = true → st.maxDelay = st.minDelay →
      computeDelay st r = st.minDelay)
    ∧ (st.humanLikeTiming = false → computeDelay st r = st.minDelay) := by
  refine ⟨?_, ?_, ?_⟩
  · intro hh hlt
    unfold computeDelay
    rw [if_pos hh]
    have hd : (0:ℚ) < (st.maxDelay : ℚ) - (st.minDelay : ℚ) := by
      have hq : (st.minDelay : ℚ) < (st.maxDelay : ℚ) := by exact_mod_cast hlt
      linarith
    constructor
    · have hf : 0 ≤ ⌊r * ((st.maxDelay : ℚ) - (st.minDelay : ℚ))⌋ :=
        Int.floor_nonneg.mpr (mul_nonneg h0 hd.le)
      linarith
    · have hlt2 : r * ((st.maxDelay : ℚ) - (st.minDelay : ℚ))
          < (st.maxDelay : ℚ) - (st.minDelay : ℚ) := by
        nlinarith [mul_pos (sub_pos.mpr h1) hd]
      have hf : ⌊r * ((st.maxDelay : ℚ) - (st.minDelay : ℚ))⌋
          < st.maxDelay - st.minDelay := by
        rw [Int.floor_lt]
        push_cast
        exact hlt2
      linarith
  · intro hh heq
    unfold computeDelay
    rw [if_pos hh, heq]
    simp
  · intro hh
    unfold computeDelay
    rw [if_neg (by simp [hh])]

/-- Settings with humanized timing and the default bounds 500/2000. -/
def humanSettings : Settings := { defaultSettings with humanLikeTiming := true }

/-- Witness for the amended C8: all three regimes at concrete settings
and the sample `r = 1/2`. -/
theorem computeDelayBounds_witness :
    (humanSettings.minDelay ≤ computeDelay humanSettings (1/2)
      ∧ computeDelay humanSettings (1/2) < humanSettings.maxDelay)
    ∧ computeDelay eqDelaySettings (1/2) = eqDelaySettings.minDelay
    ∧ computeDelay defaultSettings (1/2) = defaultSettings.minDelay :=
  ⟨(computeDelayBounds humanSettings (1/2) (by norm_num) (by norm_num)).1 rfl (by decide),
   (computeDelayBounds eqDelaySettings (1/2) (by norm_num) (by norm_num)).2.1 rfl (by decide),
   (computeDelayBounds defaultSettings (1/2) (by norm_num) (by norm_num)).2.2 rfl⟩

end Lichook
